import Mathlib

/-!
Verification of the `lightning-agent` escrow and streaming-payments modules.

The definitions below are a shallow embedding of `src/lib/escrow.js` and
`src/lib/stream.js`.  JavaScript records become Lean structures, in-place
mutation becomes explicit state passing, `throw` becomes an error value, and
every external wallet interaction is recorded in a trace so that theorems can
speak about which wallet calls an operation performs.  JavaScript string
truthiness (`""` and `null`/`undefined` are falsy) is modelled explicitly.
-/

namespace LightningAgent

/-- Escrow states, from the `State` object in src/lib/escrow.js. -/
inductive EState
  | created
  | funded
  | delivered
  | released
  | refunded
  | expired
  | disputed
deriving DecidableEq, Repr

/-- One entry of an escrow's `history` array: `{ from, to, at }`.
The very first entry (written by `create`) has `from = null`. -/
structure HistEntry where
  fromState : Option EState
  toState : EState
  atTime : Nat
deriving DecidableEq, Repr

/-- The `metadata.dispute` object written by `dispute`. -/
structure DisputeInfo where
  reason : String
  raisedBy : String
  atTime : Nat
deriving DecidableEq, Repr

/-- The open `metadata` bag: the two keys the escrow module itself writes
(`refundReason`, `dispute`) plus caller-supplied key/value pairs. -/
structure Metadata where
  refundReason : Option String
  dispute : Option DisputeInfo
  extra : List (String × String)
deriving DecidableEq, Repr

/-- An escrow record, with the fields `create` initialises in
src/lib/escrow.js (lines 128-151). -/
structure Escrow where
  id : String
  state : EState
  amountSats : Nat
  description : Option String
  workerAddress : Option String
  workerInvoice : Option String
  clientPubkey : Option String
  workerPubkey : Option String
  metadata : Metadata
  invoice : String
  paymentHash : String
  deadline : Nat
  createdAt : Nat
  updatedAt : Nat
  fundedAt : Option Nat
  deliveredAt : Option Nat
  releasedAt : Option Nat
  refundedAt : Option Nat
  deliveryProof : Option String
  releasePreimage : Option String
  refundAddress : Option String
  history : List HistEntry
deriving DecidableEq, Repr

/-- Result of `wallet.payInvoice` / `wallet.payAddress`. -/
structure PayRes where
  preimage : String
deriving DecidableEq, Repr

/-- Result of `wallet.waitForPayment`. -/
structure WaitRes where
  paid : Bool
deriving DecidableEq, Repr

/-- The wallet capability consumed by the escrow manager.  Each operation
either returns a result or fails (a rejected promise), carrying a message. -/
structure Wallet where
  payInvoice : String → Except String PayRes
  payAddress : String → Nat → String → Except String PayRes
  waitForPayment : String → Nat → Except String WaitRes

/-- A record of one wallet interaction performed by an operation. -/
inductive WalletCall
  | payInvoice (invoice : String)
  | payAddress (address : String) (amountSats : Nat) (comment : String)
  | waitForPayment (paymentHash : String) (timeoutMs : Nat)
deriving DecidableEq, Repr

/-- Classification of the `throw` sites of src/lib/escrow.js, following the
spec's error taxonomy (§7): state guards throw StateConflict, an unpaid
funding invoice throws PaymentNotReceived, a failing wallet payment call
propagates as PaymentFailed, a failing `waitForPayment` call propagates as a
transport error, and a missing payout destination is a validation failure. -/
inductive EscrowErr
  | stateConflict (msg : String)
  | paymentNotReceived
  | paymentFailed (msg : String)
  | transport (msg : String)
  | noDestination
deriving DecidableEq, Repr

/-- The `(id, oldState, newState)` triple passed to the registered
`onStateChange` observer callback on every transition. -/
structure ObsEvent where
  id : String
  oldState : EState
  newState : EState
deriving DecidableEq, Repr

/-- Outcome of one escrow operation: the wallet calls it performed, the
record's value after the call (unchanged when the operation threw, since
every throw in the source happens before any mutation), the error if it
threw, and the observer events it fired. -/
structure OpResult where
  calls : List WalletCall
  escrow : Escrow
  err : Option EscrowErr
  events : List ObsEvent
deriving DecidableEq, Repr

/-- JavaScript truthiness of a string: `""` is falsy. -/
def strTruthy (s : String) : Bool := s ≠ ""

/-- JavaScript truthiness of a nullable string. -/
def optStrTruthy : Option String → Bool
  | some s => s ≠ ""
  | none => false

/-- JavaScript `o || dflt` on a nullable string. -/
def orElseStr (o : Option String) (dflt : String) : String :=
  match o with
  | some s => if s = "" then dflt else s
  | none => dflt

/-- Embeds `transition` from src/lib/escrow.js (lines 59-68): set the new
state, bump `updatedAt`, append one history entry, fire the observer. -/
def transition (e : Escrow) (newState : EState) (now : Nat) : Escrow × ObsEvent :=
  ({ e with
      state := newState
      updatedAt := now
      history := e.history ++ [⟨some e.state, newState, now⟩] },
   ⟨e.id, e.state, newState⟩)

/-- Embeds `fund` from src/lib/escrow.js (lines 169-190).  `autoDetect` and
`timeoutMs` are the resolved option values (`opts.autoDetect !== false`,
`opts.timeoutMs || 60000`). -/
def fund (w : Wallet) (e : Escrow) (autoDetect : Bool) (timeoutMs : Nat) (now : Nat) :
    OpResult :=
  if e.state ≠ EState.created then
    ⟨[], e, some (.stateConflict "Cannot fund escrow in state"), []⟩
  else if autoDetect && strTruthy e.paymentHash then
    match w.waitForPayment e.paymentHash timeoutMs with
    | .error msg => ⟨[.waitForPayment e.paymentHash timeoutMs], e, some (.transport msg), []⟩
    | .ok r =>
      if r.paid then
        let (e2, ev) := transition { e with fundedAt := some now } .funded now
        ⟨[.waitForPayment e.paymentHash timeoutMs], e2, none, [ev]⟩
      else
        ⟨[.waitForPayment e.paymentHash timeoutMs], e, some .paymentNotReceived, []⟩
  else
    let (e2, ev) := transition { e with fundedAt := some now } .funded now
    ⟨[], e2, none, [ev]⟩

/-- Embeds `deliver` from src/lib/escrow.js (lines 199-209). -/
def deliver (e : Escrow) (proof : String) (now : Nat) : OpResult :=
  if e.state ≠ EState.funded then
    ⟨[], e, some (.stateConflict "Cannot deliver on escrow in state"), []⟩
  else
    let (e2, ev) :=
      transition { e with deliveryProof := some proof, deliveredAt := some now } .delivered now
    ⟨[], e2, none, [ev]⟩

/-- Embeds `release` from src/lib/escrow.js (lines 218-245): pay the worker
by invoice if present, else by address; on wallet failure the error
propagates and no field has been written yet. -/
def release (w : Wallet) (e : Escrow) (now : Nat) : OpResult :=
  if e.state ≠ EState.funded ∧ e.state ≠ EState.delivered then
    ⟨[], e, some (.stateConflict "Cannot release escrow in state"), []⟩
  else if optStrTruthy e.workerInvoice then
    let inv := e.workerInvoice.getD ""
    match w.payInvoice inv with
    | .error msg => ⟨[.payInvoice inv], e, some (.paymentFailed msg), []⟩
    | .ok r =>
      let (e2, ev) :=
        transition { e with releasePreimage := some r.preimage, releasedAt := some now }
          .released now
      ⟨[.payInvoice inv], e2, none, [ev]⟩
  else if optStrTruthy e.workerAddress then
    let addr := e.workerAddress.getD ""
    let comment := "Escrow release: " ++ orElseStr e.description e.id
    match w.payAddress addr e.amountSats comment with
    | .error msg => ⟨[.payAddress addr e.amountSats comment], e, some (.paymentFailed msg), []⟩
    | .ok r =>
      let (e2, ev) :=
        transition { e with releasePreimage := some r.preimage, releasedAt := some now }
          .released now
      ⟨[.payAddress addr e.amountSats comment], e2, none, [ev]⟩
  else
    ⟨[], e, some .noDestination, []⟩

/-- Embeds `refund` from src/lib/escrow.js (lines 255-280): rejected only
from RELEASED and REFUNDED; pays `refundAddress` when one is given (a null
or empty address skips the wallet call), then records the refund and
transitions to REFUNDED. -/
def refund (w : Wallet) (e : Escrow) (refundAddress : Option String)
    (reason : Option String) (now : Nat) : OpResult :=
  if e.state = EState.released then
    ⟨[], e, some (.stateConflict "Cannot refund - already released"), []⟩
  else if e.state = EState.refunded then
    ⟨[], e, some (.stateConflict "Already refunded"), []⟩
  else
    let comment := "Escrow refund: " ++ orElseStr reason e.id
    let commit : List WalletCall → OpResult := fun calls =>
      let meta := { e.metadata with refundReason := some (orElseStr reason "manual") }
      let (e2, ev) :=
        transition
          { e with refundAddress := refundAddress, refundedAt := some now, metadata := meta }
          .refunded now
      ⟨calls, e2, none, [ev]⟩
    if optStrTruthy refundAddress then
      let addr := refundAddress.getD ""
      match w.payAddress addr e.amountSats comment with
      | .error msg => ⟨[.payAddress addr e.amountSats comment], e, some (.paymentFailed msg), []⟩
      | .ok _ => commit [.payAddress addr e.amountSats comment]
    else
      commit []

/-- Embeds `dispute` from src/lib/escrow.js (lines 290-299): rejected only
from RELEASED and REFUNDED; records the dispute in metadata and transitions
to DISPUTED. -/
def dispute (e : Escrow) (reason : String) (raisedBy : String) (now : Nat) : OpResult :=
  if e.state = EState.released ∨ e.state = EState.refunded then
    ⟨[], e, some (.stateConflict "Cannot dispute - escrow already released or refunded"), []⟩
  else
    let meta := { e.metadata with dispute := some ⟨reason, raisedBy, now⟩ }
    let (e2, ev) := transition { e with metadata := meta } .disputed now
    ⟨[], e2, none, [ev]⟩

/-- Embeds the deadline-timer fire handler from src/lib/escrow.js
(lines 80-86): re-check the current state; transition to EXPIRED only from
CREATED or FUNDED, otherwise do nothing at all. -/
def fireDeadline (e : Escrow) (now : Nat) : Escrow × List ObsEvent :=
  if e.state = EState.funded ∨ e.state = EState.created then
    let (e2, ev) := transition e .expired now
    (e2, [ev])
  else
    (e, [])

/-- The state-changing escrow operations, with their arguments. -/
inductive EOp
  | fundOp (autoDetect : Bool) (timeoutMs : Nat)
  | deliverOp (proof : String)
  | releaseOp
  | refundOp (addr : Option String) (reason : Option String)
  | disputeOp (reason : String) (raisedBy : String)
  | fireOp
deriving Repr

/-- Apply one escrow operation.  The deadline firing never throws; it merely
may leave the escrow unchanged. -/
def applyOp (w : Wallet) (e : Escrow) (now : Nat) : EOp → OpResult
  | .fundOp ad t => fund w e ad t now
  | .deliverOp p => deliver e p now
  | .releaseOp => release w e now
  | .refundOp a r => refund w e a r now
  | .disputeOp r rb => dispute e r rb now
  | .fireOp =>
    let (e2, evs) := fireDeadline e now
    ⟨[], e2, none, evs⟩

/-- The spec's transition table (§4.1). -/
def specTable : List (EState × EState) :=
  [(.created, .funded), (.created, .expired),
   (.funded, .delivered), (.funded, .released), (.funded, .refunded),
   (.funded, .expired), (.funded, .disputed),
   (.delivered, .released), (.delivered, .refunded), (.delivered, .disputed)]

/-- The transitions the source actually permits: the spec's table plus the
refund and dispute transitions out of CREATED, EXPIRED and DISPUTED that the
guards of `refund` and `dispute` allow. -/
def actualTable : List (EState × EState) :=
  specTable ++
  [(.created, .refunded), (.created, .disputed),
   (.expired, .refunded), (.expired, .disputed),
   (.disputed, .refunded), (.disputed, .disputed)]

/-- A concrete escrow record in a given state, used to instantiate theorems. -/
def mkEscrow (s : EState) : Escrow where
  id := "e1"
  state := s
  amountSats := 500
  description := none
  workerAddress := some "worker@x"
  workerInvoice := none
  clientPubkey := none
  workerPubkey := none
  metadata := ⟨none, none, []⟩
  invoice := "lnbc500n1"
  paymentHash := "ph"
  deadline := 1000
  createdAt := 0
  updatedAt := 0
  fundedAt := none
  deliveredAt := none
  releasedAt := none
  refundedAt := none
  deliveryProof := none
  releasePreimage := none
  refundAddress := none
  history := [⟨none, .created, 0⟩]

/-- A wallet in which every call succeeds. -/
def okWallet : Wallet where
  payInvoice := fun _ => .ok ⟨"pre1"⟩
  payAddress := fun _ _ _ => .ok ⟨"pre2"⟩
  waitForPayment := fun _ _ => .ok ⟨true⟩

/-- A wallet in which every payment call fails and no payment ever
confirms. -/
def failWallet : Wallet where
  payInvoice := fun _ => .error "pay failed"
  payAddress := fun _ _ _ => .error "pay failed"
  waitForPayment := fun _ _ => .ok ⟨false⟩

/-- Does an error value classify as a StateConflict? -/
def isStateConflict : Option EscrowErr → Bool
  | some (.stateConflict _) => true
  | _ => false

lemma fund_ok_state (w : Wallet) (e : Escrow) (ad : Bool) (t now : Nat)
    (h : (fund w e ad t now).err = none) :
    e.state = .created ∧ (fund w e ad t now).escrow.state = .funded := by
  by_cases hs : e.state = EState.created
  · refine ⟨hs, ?_⟩
    by_cases had : (ad && strTruthy e.paymentHash) = true
    · rcases hw : w.waitForPayment e.paymentHash t with msg | r
      · simp [fund, hs, had, hw] at h
      · by_cases hp : r.paid
        · simp [fund, hs, had, hw, hp, transition]
        · simp [fund, hs, had, hw, hp] at h
    · simp [fund, hs, had, transition]
  · simp [fund, hs] at h

lemma deliver_ok_state (e : Escrow) (p : String) (now : Nat)
    (h : (deliver e p now).err = none) :
    e.state = .funded ∧ (deliver e p now).escrow.state = .delivered := by
  by_cases hs : e.state = EState.funded
  · exact ⟨hs, by simp [deliver, hs, transition]⟩
  · simp [deliver, hs] at h

lemma release_ok_state (w : Wallet) (e : Escrow) (now : Nat)
    (h : (release w e now).err = none) :
    (e.state = .funded ∨ e.state = .delivered) ∧
      (release w e now).escrow.state = .released := by
  by_cases hs : e.state ≠ EState.funded ∧ e.state ≠ EState.delivered
  · simp [release, hs] at h
  · have hs' : e.state = EState.funded ∨ e.state = EState.delivered := by tauto
    refine ⟨hs', ?_⟩
    by_cases hinv : optStrTruthy e.workerInvoice = true
    · rcases hw : w.payInvoice (e.workerInvoice.getD "") with msg | r
      · simp [release, hs, hinv, hw] at h
      · simp [release, hs, hinv, hw, transition]
    · by_cases haddr : optStrTruthy e.workerAddress = true
      · rcases hw : w.payAddress (e.workerAddress.getD "") e.amountSats
            ("Escrow release: " ++ orElseStr e.description e.id) with msg | r
        · simp [release, hs, hinv, haddr, hw] at h
        · simp [release, hs, hinv, haddr, hw, transition]
      · simp [release, hs, hinv, haddr] at h

lemma refund_ok_state (w : Wallet) (e : Escrow) (a r : Option String) (now : Nat)
    (h : (refund w e a r now).err = none) :
    (e.state ≠ .released ∧ e.state ≠ .refunded) ∧
      (refund w e a r now).escrow.state = .refunded := by
  by_cases h1 : e.state = EState.released
  · simp [refund, h1] at h
  · by_cases h2 : e.state = EState.refunded
    · simp [refund, h1, h2] at h
    · refine ⟨⟨h1, h2⟩, ?_⟩
      by_cases ha : optStrTruthy a = true
      · rcases hw : w.payAddress (a.getD "") e.amountSats
            ("Escrow refund: " ++ orElseStr r e.id) with msg | pr
        · simp [refund, h1, h2, ha, hw] at h
        · simp [refund, h1, h2, ha, hw, transition]
      · simp [refund, h1, h2, ha, transition]

lemma dispute_ok_state (e : Escrow) (r rb : String) (now : Nat)
    (h : (dispute e r rb now).err = none) :
    (e.state ≠ .released ∧ e.state ≠ .refunded) ∧
      (dispute e r rb now).escrow.state = .disputed := by
  by_cases hs : e.state = EState.released ∨ e.state = EState.refunded
  · simp [dispute, hs] at h
  · exact ⟨by tauto, by simp [dispute, hs, transition]⟩

lemma fireDeadline_cases (e : Escrow) (now : Nat) :
    fireDeadline e now = (e, []) ∨
      ((e.state = .created ∨ e.state = .funded) ∧
        (fireDeadline e now).1.state = .expired) := by
  by_cases hs : e.state = EState.funded ∨ e.state = EState.created
  · exact Or.inr ⟨hs.symm, by simp [fireDeadline, hs, transition]⟩
  · exact Or.inl (by simp [fireDeadline, hs])

/-- C1 (amended): every successful escrow operation, and every deadline
firing that changes the escrow at all, moves it along a pair of
`actualTable` — the spec's table extended with the refund and dispute
transitions out of CREATED, EXPIRED and DISPUTED that the source's guards
permit (`refund` and `dispute` reject only RELEASED and REFUNDED); and no
pair of `actualTable` leaves RELEASED or REFUNDED, so those two states (but
not EXPIRED) are terminal. -/
theorem escrow_transitions_within_actualTable (w : Wallet) (e : Escrow) (now : Nat)
    (op : EOp) (h : (applyOp w e now op).err = none) :
    ((applyOp w e now op).escrow = e ∨
      (e.state, (applyOp w e now op).escrow.state) ∈ actualTable) ∧
    (∀ p ∈ actualTable, p.1 ≠ EState.released ∧ p.1 ≠ EState.refunded) := by
  refine ⟨?_, by decide⟩
  cases op with
  | fundOp ad t =>
    obtain ⟨h1, h2⟩ := fund_ok_state w e ad t now h
    simp only [applyOp]
    rw [h1, h2]
    exact Or.inr (by decide)
  | deliverOp p =>
    obtain ⟨h1, h2⟩ := deliver_ok_state e p now h
    simp only [applyOp]
    rw [h1, h2]
    exact Or.inr (by decide)
  | releaseOp =>
    obtain ⟨h1, h2⟩ := release_ok_state w e now h
    simp only [applyOp]
    rw [h2]
    rcases h1 with h1 | h1 <;> rw [h1] <;> exact Or.inr (by decide)
  | refundOp a r =>
    obtain ⟨⟨h1, h2⟩, h3⟩ := refund_ok_state w e a r now h
    simp only [applyOp]
    rw [h3]
    cases hs : e.state <;> rw [hs] at h1 h2 <;> first
      | exact absurd rfl h1
      | exact absurd rfl h2
      | exact Or.inr (by decide)
  | disputeOp r rb =>
    obtain ⟨⟨h1, h2⟩, h3⟩ := dispute_ok_state e r rb now h
    simp only [applyOp]
    rw [h3]
    cases hs : e.state <;> rw [hs] at h1 h2 <;> first
      | exact absurd rfl h1
      | exact absurd rfl h2
      | exact Or.inr (by decide)
  | fireOp =>
    rcases fireDeadline_cases e now with hf | ⟨h1, h2⟩
    · exact Or.inl (by simp [applyOp, hf])
    · refine Or.inr ?_
      have hesc : (applyOp w e now .fireOp).escrow = (fireDeadline e now).1 := by
        simp [applyOp]
      rw [hesc, h2]
      rcases h1 with h1 | h1 <;> rw [h1] <;> decide

/-- C1 witness: a dispute raised on a FUNDED escrow moves it along a pair of
`actualTable`. -/
theorem escrow_transitions_within_actualTable_witness :
    ((mkEscrow .funded).state,
      (applyOp okWallet (mkEscrow .funded) 3 (.disputeOp "bad work" "client")).escrow.state)
      ∈ actualTable := by
  have h := escrow_transitions_within_actualTable okWallet (mkEscrow .funded) 3
    (.disputeOp "bad work" "client") (by decide)
  rcases h.1 with h1 | h1
  · exact absurd h1 (by decide)
  · exact h1

/-- C1 counterexample: an escrow in EXPIRED can be refunded (with a null
refund address the source skips the wallet call entirely), producing the
transition EXPIRED -> REFUNDED, which the spec's table does not contain; so
the claim that exactly the table's transitions are permitted, and that
EXPIRED is terminal, is false of the code. -/
theorem refund_from_expired_leaves_specTable :
    (refund okWallet (mkEscrow .expired) none none 5).err = none ∧
    (refund okWallet (mkEscrow .expired) none none 5).escrow.state = .refunded ∧
    ((mkEscrow .expired).state, EState.refunded) ∉ specTable := by
  exact ⟨by decide, by decide, by decide⟩

/-- C2: on an escrow in RELEASED or REFUNDED, each of fund, deliver, release
and refund fails with a StateConflict error, performs no wallet call, fires
no observer event, and leaves the record (state included) unchanged. -/
theorem terminal_escrow_ops_conflict (w : Wallet) (e : Escrow) (ad : Bool)
    (t now : Nat) (p : String) (a r : Option String)
    (h : e.state = .released ∨ e.state = .refunded) :
    fund w e ad t now = ⟨[], e, some (.stateConflict "Cannot fund escrow in state"), []⟩ ∧
    deliver e p now = ⟨[], e, some (.stateConflict "Cannot deliver on escrow in state"), []⟩ ∧
    release w e now = ⟨[], e, some (.stateConflict "Cannot release escrow in state"), []⟩ ∧
    (refund w e a r now).calls = [] ∧ (refund w e a r now).escrow = e ∧
    isStateConflict (refund w e a r now).err = true ∧ (refund w e a r now).events = [] := by
  rcases h with h | h <;>
    simp [fund, deliver, release, refund, isStateConflict, h]

/-- C2 witness: the conflict behaviour at a concrete RELEASED escrow. -/
theorem terminal_escrow_ops_conflict_witness :
    fund okWallet (mkEscrow .released) true 60000 7 =
      ⟨[], mkEscrow .released, some (.stateConflict "Cannot fund escrow in state"), []⟩ ∧
    deliver (mkEscrow .released) "proof" 7 =
      ⟨[], mkEscrow .released, some (.stateConflict "Cannot deliver on escrow in state"), []⟩ ∧
    release okWallet (mkEscrow .released) 7 =
      ⟨[], mkEscrow .released, some (.stateConflict "Cannot release escrow in state"), []⟩ ∧
    (refund okWallet (mkEscrow .released) (some "c@x") none 7).calls = [] ∧
    (refund okWallet (mkEscrow .released) (some "c@x") none 7).escrow = mkEscrow .released ∧
    isStateConflict (refund okWallet (mkEscrow .released) (some "c@x") none 7).err = true ∧
    (refund okWallet (mkEscrow .released) (some "c@x") none 7).events = [] :=
  terminal_escrow_ops_conflict okWallet (mkEscrow .released) true 60000 7 "proof"
    (some "c@x") none (Or.inl rfl)

/-- C3: release, fund and refund are atomic with respect to wallet failure:
when the wallet payment call fails (or, for fund, the payment never
confirms), the operation reports the failure and the escrow record is left
exactly as it was — no field is modified and no observer event fires. -/
theorem escrow_ops_atomic_on_wallet_failure (w : Wallet) (e : Escrow)
    (now t : Nat) (inv addr msg : String) (r : Option String) :
    ((e.state = .funded ∨ e.state = .delivered) → e.workerInvoice = some inv → inv ≠ "" →
      w.payInvoice inv = .error msg →
      release w e now = ⟨[.payInvoice inv], e, some (.paymentFailed msg), []⟩) ∧
    ((e.state = .funded ∨ e.state = .delivered) → optStrTruthy e.workerInvoice = false →
      e.workerAddress = some addr → addr ≠ "" →
      w.payAddress addr e.amountSats ("Escrow release: " ++ orElseStr e.description e.id)
        = .error msg →
      release w e now =
        ⟨[.payAddress addr e.amountSats ("Escrow release: " ++ orElseStr e.description e.id)],
          e, some (.paymentFailed msg), []⟩) ∧
    (e.state = .created → e.paymentHash ≠ "" →
      w.waitForPayment e.paymentHash t = .ok ⟨false⟩ →
      fund w e true t now =
        ⟨[.waitForPayment e.paymentHash t], e, some .paymentNotReceived, []⟩) ∧
    ((e.state ≠ .released ∧ e.state ≠ .refunded) → addr ≠ "" →
      w.payAddress addr e.amountSats ("Escrow refund: " ++ orElseStr r e.id) = .error msg →
      refund w e (some addr) r now =
        ⟨[.payAddress addr e.amountSats ("Escrow refund: " ++ orElseStr r e.id)],
          e, some (.paymentFailed msg), []⟩) := by
  refine ⟨?_, ?_, ?_, ?_⟩
  · intro hs hinv hne hw
    have hguard : ¬(e.state ≠ EState.funded ∧ e.state ≠ EState.delivered) := by tauto
    simp [release, hguard, hinv, optStrTruthy, hne, hw]
  · intro hs hinv haddr hne hw
    have hguard : ¬(e.state ≠ EState.funded ∧ e.state ≠ EState.delivered) := by tauto
    have htr : optStrTruthy e.workerAddress = true := by
      rw [haddr]
      simp [optStrTruthy, hne]
    simp [release, hguard, hinv, htr, haddr, hw]
    simp [optStrTruthy, hne]
  · intro hs hph hw
    simp [fund, hs, strTruthy, hph, hw]
  · intro hs hne hw
    simp [refund, hs.1, hs.2, optStrTruthy, hne, hw]

/-- C3 witness: a concrete FUNDED escrow paying by invoice through a wallet
whose payment call fails is left unchanged with a PaymentFailed error. -/
theorem escrow_ops_atomic_on_wallet_failure_witness :
    release failWallet { mkEscrow .funded with workerInvoice := some "lnbcW" } 9 =
      ⟨[.payInvoice "lnbcW"], { mkEscrow .funded with workerInvoice := some "lnbcW" },
        some (.paymentFailed "pay failed"), []⟩ :=
  (escrow_ops_atomic_on_wallet_failure failWallet
      { mkEscrow .funded with workerInvoice := some "lnbcW" } 9 0 "lnbcW" "x" "pay failed"
      none).1
    (Or.inl rfl) rfl (by decide) rfl

/-- C8: the deadline-timer fire handler is a no-op (no state change, no
history entry, no observer callback) unless the escrow's state at firing
time is CREATED or FUNDED, in which case it transitions the escrow to
EXPIRED, appending exactly one history entry and firing the observer once. -/
theorem fireDeadline_noop_or_expire (e : Escrow) (now : Nat) :
    (¬(e.state = .created ∨ e.state = .funded) → fireDeadline e now = (e, [])) ∧
    ((e.state = .created ∨ e.state = .funded) →
      (fireDeadline e now).1 =
        { e with
            state := .expired
            updatedAt := now
            history := e.history ++ [⟨some e.state, .expired, now⟩] } ∧
      (fireDeadline e now).2 = [⟨e.id, e.state, .expired⟩]) := by
  constructor
  · intro hs
    have hs' : ¬(e.state = EState.funded ∨ e.state = EState.created) := by tauto
    simp [fireDeadline, hs']
  · intro hs
    have hs' : e.state = EState.funded ∨ e.state = EState.created := hs.symm
    simp [fireDeadline, hs', transition]

/-- C8 witness: firing against a RELEASED escrow changes nothing; firing
against a CREATED escrow expires it. -/
theorem fireDeadline_noop_or_expire_witness :
    fireDeadline (mkEscrow .released) 9 = (mkEscrow .released, []) ∧
    (fireDeadline (mkEscrow .created) 9).1 =
      { mkEscrow .created with
          state := .expired
          updatedAt := 9
          history := (mkEscrow .created).history ++ [⟨some .created, .expired, 9⟩] } :=
  ⟨(fireDeadline_noop_or_expire (mkEscrow .released) 9).1 (by decide),
   ((fireDeadline_noop_or_expire (mkEscrow .created) 9).2 (Or.inl rfl)).1⟩

/-- C10: `fund(id, {autoDetect: false})` on a CREATED escrow performs no
wallet call at all and transitions unconditionally to FUNDED — the result is
the same for every wallet, including one on which the funding invoice was
never paid, so FUNDED does not witness payment. -/
theorem fund_autodetect_false_unconditional (w : Wallet) (e : Escrow)
    (t now : Nat) (h : e.state = .created) :
    (fund w e false t now).calls = [] ∧
    (fund w e false t now).err = none ∧
    (fund w e false t now).escrow.state = .funded ∧
    fund w e false t now = fund failWallet e false t now := by
  simp [fund, h, transition]

/-- C10 witness: funding a concrete CREATED escrow with autoDetect off
against the never-paying wallet. -/
theorem fund_autodetect_false_unconditional_witness :
    (fund failWallet (mkEscrow .created) false 60000 3).calls = [] ∧
    (fund failWallet (mkEscrow .created) false 60000 3).err = none ∧
    (fund failWallet (mkEscrow .created) false 60000 3).escrow.state = .funded :=
  have h := fund_autodetect_false_unconditional failWallet (mkEscrow .created) 60000 3 rfl
  ⟨h.1, h.2.1, h.2.2.1⟩

/-! Streaming provider, from src/lib/stream.js. -/

/-- Resolved provider configuration (`createStreamProvider` options plus the
per-request `firstBatchFree` option). -/
structure StreamCfg where
  satsPerBatch : Nat
  tokensPerBatch : Nat
  maxBatches : Nat
  firstBatchFree : Bool
deriving Repr

/-- The session's single `pendingPayment` tuple. -/
structure Pending where
  paymentHash : String
  batchIndex : Nat
  invoice : String
deriving DecidableEq, Repr

/-- A stream session record, as allocated in `handleRequest`
(src/lib/stream.js lines 102-110); `paid` is the set of confirmed batch
indices. -/
structure SessionSt where
  id : String
  batchIndex : Nat
  totalTokens : Nat
  totalSats : Nat
  pendingPayment : Option Pending
  paid : List Nat
  closed : Bool
deriving DecidableEq, Repr

/-- The server-sent events the provider emits. -/
inductive SEvent
  | session (sessionId : String)
  | content (tokens : String) (batchIndex : Nat) (tokenCount : Nat)
  | invoice (invoice : String) (paymentHash : String) (batchIndex : Nat) (sats : Nat)
  | paused (batchIndex : Nat) (totalSats : Nat)
  | done (reason : String) (totalBatches : Nat) (totalSats : Nat) (totalTokens : Nat)
deriving DecidableEq, Repr

/-- State at exit of the `for await` producer loop: the events emitted inside
the loop, the session, and the residual buffer and token count. -/
structure LoopOut where
  events : List SEvent
  sess : SessionSt
  buf : String
  tc : Nat
deriving DecidableEq, Repr

/-- Embeds the producer loop of `handleRequest` (src/lib/stream.js lines
121-191).  `invOf n` is the invoice/payment-hash pair `wallet.createInvoice`
returns when gating batch `n`; `payOk n` says whether `_waitForPayment`
observes payment for batch `n` before `paymentTimeoutMs` (on success both
confirmation channels add `n` to `paid` and clear `pendingPayment`). -/
def producerLoop (cfg : StreamCfg) (invOf : Nat → String × String) (payOk : Nat → Bool) :
    List String → SessionSt → String → Nat → LoopOut
  | [], s, buf, tc => ⟨[], s, buf, tc⟩
  | tok :: rest, s, buf, tc =>
    if s.closed then ⟨[], s, buf, tc⟩
    else
      let buf1 := buf ++ tok
      let tc1 := tc + 1
      if tc1 ≥ cfg.tokensPerBatch then
        let s1 := { s with batchIndex := s.batchIndex + 1, totalTokens := s.totalTokens + tc1 }
        let evC := SEvent.content buf1 s1.batchIndex tc1
        if s1.batchIndex ≥ cfg.maxBatches then
          ⟨[evC, SEvent.done "max_batches" s1.batchIndex s1.totalSats s1.totalTokens],
            s1, "", 0⟩
        else
          if cfg.firstBatchFree && s1.batchIndex == 1 then
            let out := producerLoop cfg invOf payOk rest s1 "" 0
            { out with events := evC :: out.events }
          else
            let pr := invOf (s1.batchIndex + 1)
            let s2 := { s1 with pendingPayment := some ⟨pr.2, s1.batchIndex + 1, pr.1⟩ }
            let evI := SEvent.invoice pr.1 pr.2 (s1.batchIndex + 1) cfg.satsPerBatch
            if payOk (s1.batchIndex + 1) then
              let s3 := { s2 with
                  totalSats := s2.totalSats + cfg.satsPerBatch
                  pendingPayment := none
                  paid := (s1.batchIndex + 1) :: s2.paid }
              let out := producerLoop cfg invOf payOk rest s3 "" 0
              { out with events := evC :: evI :: out.events }
            else
              ⟨[evC, evI, SEvent.paused s1.batchIndex s1.totalSats], s2, "", 0⟩
      else
        producerLoop cfg invOf payOk rest s buf1 tc1

/-- Embeds the whole SSE branch of `handleRequest` (src/lib/stream.js lines
101-220) for a generator that yields `tokens` and then completes: session
allocation, the producer loop, the final-buffer flush, the unconditional
trailing `done` emission guarded only by `session.closed`, and the `finally`
block that sets `closed`. -/
def handleRequestGet (cfg : StreamCfg) (invOf : Nat → String × String) (payOk : Nat → Bool)
    (tokens : List String) (sid : String) : List SEvent × SessionSt :=
  let s0 : SessionSt := ⟨sid, 0, 0, 0, none, [], false⟩
  let lo := producerLoop cfg invOf payOk tokens s0 "" 0
  let flushed :=
    if lo.buf.length > 0 && !lo.sess.closed then
      let s1 := { lo.sess with
          batchIndex := lo.sess.batchIndex + 1
          totalTokens := lo.sess.totalTokens + lo.tc }
      ([SEvent.content lo.buf s1.batchIndex lo.tc], s1)
    else (([] : List SEvent), lo.sess)
  let evs3 :=
    if !flushed.2.closed then
      [SEvent.done "complete" flushed.2.batchIndex flushed.2.totalSats flushed.2.totalTokens]
    else []
  (SEvent.session sid :: (lo.events ++ flushed.1 ++ evs3), { flushed.2 with closed := true })

/-- The responses `_handlePayment` can send. -/
inductive PayResp
  | unknownSession
  | invalidPreimage
  | noPending
  | unlocked
deriving DecidableEq, Repr

/-- Embeds `_handlePayment` (src/lib/stream.js lines 227-268): `sha` is
SHA-256 composed with hex decoding of the submitted preimage; `sess` is the
store lookup of the submitted session id.  An empty preimage string is falsy
in the source and lands in the "no pending payment or missing preimage"
branch. -/
def handlePayment (sha : String → String) (sess : Option SessionSt)
    (preimage : Option String) : Option SessionSt × PayResp :=
  match sess with
  | none => (none, .unknownSession)
  | some s =>
    match preimage, s.pendingPayment with
    | some p, some pend =>
      if p = "" then (some s, .noPending)
      else if sha p = pend.paymentHash then
        (some { s with paid := pend.batchIndex :: s.paid, pendingPayment := none }, .unlocked)
      else (some s, .invalidPreimage)
    | _, _ => (some s, .noPending)

/-- The acceptance condition of a payment proof: the session exists, it has
a current pending payment, and the submitted (non-empty) preimage hashes to
the pending payment hash. -/
def proofAccepted (sha : String → String) (sess : Option SessionSt)
    (preimage : Option String) : Prop :=
  ∃ s pend p, sess = some s ∧ s.pendingPayment = some pend ∧ preimage = some p ∧
    p ≠ "" ∧ sha p = pend.paymentHash

/-- C4: a payment proof is accepted — `paid` gains the pending batch index,
`pendingPayment` is cleared, and the response signals batchUnlocked — exactly
when the session exists, it has a current pendingPayment and the submitted
preimage hashes to its paymentHash; in every other case the session record
is returned unchanged. -/
theorem handlePayment_accept_iff (sha : String → String) (sess : Option SessionSt)
    (preimage : Option String) :
    ((handlePayment sha sess preimage).2 = .unlocked ↔ proofAccepted sha sess preimage) ∧
    ((handlePayment sha sess preimage).2 = .unlocked →
      ∃ s pend, sess = some s ∧ s.pendingPayment = some pend ∧
        (handlePayment sha sess preimage).1 =
          some { s with paid := pend.batchIndex :: s.paid, pendingPayment := none }) ∧
    ((handlePayment sha sess preimage).2 ≠ .unlocked →
      (handlePayment sha sess preimage).1 = sess) := by
  rcases sess with _ | s
  · refine ⟨?_, ?_, ?_⟩ <;> simp [handlePayment, proofAccepted]
  · rcases preimage with _ | p
    · refine ⟨?_, ?_, ?_⟩ <;> simp [handlePayment, proofAccepted]
    · rcases hp : s.pendingPayment with _ | pend
      · refine ⟨?_, ?_, ?_⟩ <;> simp [handlePayment, proofAccepted, hp]
      · by_cases hemp : p = ""
        · refine ⟨?_, ?_, ?_⟩ <;> simp [handlePayment, proofAccepted, hp, hemp]
        · by_cases hsha : sha p = pend.paymentHash
          · refine ⟨?_, ?_, ?_⟩
            · simp only [handlePayment, hp, hemp, hsha, if_neg, if_pos, if_true]
              constructor
              · intro _
                exact ⟨s, pend, p, rfl, hp, rfl, hemp, hsha⟩
              · intro _
                simp [hemp, hsha]
            · intro _
              exact ⟨s, pend, rfl, hp, by simp [handlePayment, hp, hemp, hsha]⟩
            · intro hne
              exact absurd (by simp [handlePayment, hp, hemp, hsha]) hne
          · refine ⟨?_, ?_, ?_⟩
            · simp only [handlePayment, hp, hemp, hsha]
              constructor
              · intro habs
                simp [hemp, hsha] at habs
              · rintro ⟨s', pend', p', hs', hpend', hp', hne', hsha'⟩
                cases hs'
                rw [hp] at hpend'
                cases hpend'
                cases hp'
                exact absurd hsha' hsha
            · intro habs
              simp [handlePayment, hp, hemp, hsha] at habs
            · intro _
              simp [handlePayment, hp, hemp, hsha]

/-- A sha function and a session used to instantiate the proof-handling
theorem: the hash of a string appends "H". -/
def shaSuffix (s : String) : String := s ++ "H"

/-- A session gating batch 2 on payment hash "pH". -/
def sessGated : SessionSt := ⟨"sid", 1, 50, 0, some ⟨"pH", 2, "lnbc1"⟩, [], false⟩

/-- C4 witness: submitting preimage "p" (whose hash is "pH") against
`sessGated` unlocks the batch. -/
theorem handlePayment_accept_iff_witness :
    (handlePayment shaSuffix (some sessGated) (some "p")).2 = .unlocked :=
  (handlePayment_accept_iff shaSuffix (some sessGated) (some "p")).1.mpr
    ⟨sessGated, ⟨"pH", 2, "lnbc1"⟩, "p", rfl, rfl, rfl, by decide, rfl⟩

/-- Is an event a `done` event? -/
def isDoneEv : SEvent → Bool
  | .done _ _ _ _ => true
  | _ => false

/-- Is an event a `content` event? -/
def isContentEv : SEvent → Bool
  | .content _ _ _ => true
  | _ => false

/-- Is an event an `invoice` event? -/
def isInvoiceEv : SEvent → Bool
  | .invoice _ _ _ _ => true
  | _ => false

/-- Count the events satisfying a predicate. -/
def countEv (p : SEvent → Bool) (l : List SEvent) : Nat := (l.filter p).length

/-- Configuration of the C6 scenario: tokensPerBatch=50, maxBatches=1. -/
def cfgMax1 : StreamCfg := ⟨1, 50, 1, true⟩

/-- Configuration of the C5 scenario: one-token batches, maxBatches=2, no
free first batch. -/
def cfgPause : StreamCfg := ⟨2, 1, 2, false⟩

/-- A fixed invoice oracle. -/
def invConst : Nat → String × String := fun _ => ("lnbc", "ph")

/-- A payment oracle on which no payment ever confirms. -/
def payNever : Nat → Bool := fun _ => false

/-- C5 evaluation: when the per-batch payment wait times out, the provider
emits `paused` and stops producing, but then — contrary to the source's own
"Don't end — client can still pay and we'll resume" comment — control falls
through to the completion path, which emits a terminal `done` event with
reason "complete", and the `finally` block marks the session closed. -/
theorem stream_timeout_emits_done_and_closes :
    (handleRequestGet cfgPause invConst payNever ["a"] "s").1 =
      [SEvent.session "s", SEvent.content "a" 1 1, SEvent.invoice "lnbc" "ph" 2 2,
        SEvent.paused 1 0, SEvent.done "complete" 1 0 1] ∧
    countEv isDoneEv (handleRequestGet cfgPause invConst payNever ["a"] "s").1 = 1 ∧
    (handleRequestGet cfgPause invConst payNever ["a"] "s").2.closed = true ∧
    (handleRequestGet cfgPause invConst payNever ["a"] "s").2.pendingPayment =
      some ⟨"ph", 2, "lnbc"⟩ := by
  refine ⟨by decide, by decide, by decide, by decide⟩

/-- C6 evaluation: with tokensPerBatch=50 and maxBatches=1 a 50-token
sequence yields exactly one content event and no invoice event, but the
`done(max_batches)` emission is followed by a second `done` event with
reason "complete", because the max-batches `break` falls through to the
completion path before `closed` is set. -/
theorem stream_maxbatches_emits_two_done :
    (handleRequestGet cfgMax1 invConst payNever (List.replicate 50 "t") "s").1 =
      [SEvent.session "s",
        SEvent.content (String.join (List.replicate 50 "t")) 1 50,
        SEvent.done "max_batches" 1 0 50,
        SEvent.done "complete" 1 0 50] ∧
    countEv isContentEv
      (handleRequestGet cfgMax1 invConst payNever (List.replicate 50 "t") "s").1 = 1 ∧
    countEv isInvoiceEv
      (handleRequestGet cfgMax1 invConst payNever (List.replicate 50 "t") "s").1 = 0 ∧
    countEv isDoneEv
      (handleRequestGet cfgMax1 invConst payNever (List.replicate 50 "t") "s").1 = 2 := by
  refine ⟨by decide, by decide, by decide, by decide⟩

/-! Streaming client, from src/lib/stream.js lines 351-463. -/

/-- The parsed SSE events the client loop reacts to. -/
inductive CEvent
  | session (sessionId : String)
  | content (tokens : String)
  | invoice (invoice : String) (sats : Nat)
  | done
  | errored (msg : String)
  | paused
deriving DecidableEq, Repr

/-- One wallet `payInvoice` call the client performed, with the cumulative
spend at the moment of the call. -/
structure Payment where
  invoice : String
  sats : Nat
  spentBefore : Nat
deriving DecidableEq, Repr

/-- Client loop state: cumulative spend, remembered session id, yielded
content chunks, the payment calls performed, and whether the loop has
terminated (`done` returns, `error` throws). -/
structure ClientSt where
  spent : Nat
  sessionId : Option String
  yielded : List String
  payments : List Payment
  halted : Bool
  failed : Option String
deriving DecidableEq, Repr

/-- Initial client state (`spent = 0`, `sessionId = null`). -/
def clientInit : ClientSt := ⟨0, none, [], [], false, none⟩

/-- Embeds one iteration of the client's event switch (src/lib/stream.js
lines 401-453).  On `invoice`, the wallet is called only under the guard
`autoPay && spent + sats <= budget`; `spent` grows only when the payment
succeeds (`payOk`), and a failed payment or proof POST is logged without
aborting.  After `done` or `error` no further event is processed. -/
def clientStep (autoPay : Bool) (budget : Nat) (payOk : String → Bool) (st : ClientSt)
    (ev : CEvent) : ClientSt :=
  if st.halted then st
  else
    match ev with
    | .session sid => { st with sessionId := some sid }
    | .content t => { st with yielded := st.yielded ++ [t] }
    | .invoice inv sats =>
      if autoPay = true ∧ st.spent + sats ≤ budget then
        if payOk inv then
          { st with
              spent := st.spent + sats
              payments := st.payments ++ [⟨inv, sats, st.spent⟩] }
        else
          { st with payments := st.payments ++ [⟨inv, sats, st.spent⟩] }
      else st
    | .done => { st with halted := true }
    | .errored m => { st with halted := true, failed := some m }
    | .paused => st

/-- Run the client loop over a list of parsed events. -/
def clientRun (autoPay : Bool) (budget : Nat) (payOk : String → Bool)
    (evs : List CEvent) : ClientSt :=
  evs.foldl (clientStep autoPay budget payOk) clientInit

/-- The budget invariant: cumulative spend within budget, and every wallet
call was made while it still fit the budget. -/
def BudgetInv (budget : Nat) (st : ClientSt) : Prop :=
  st.spent ≤ budget ∧ ∀ r ∈ st.payments, r.spentBefore + r.sats ≤ budget

lemma clientStep_preserves_budget (autoPay : Bool) (budget : Nat) (payOk : String → Bool)
    (st : ClientSt) (ev : CEvent) (h : BudgetInv budget st) :
    BudgetInv budget (clientStep autoPay budget payOk st ev) := by
  obtain ⟨h1, h2⟩ := h
  unfold clientStep
  by_cases hh : st.halted
  · simpa [hh] using ⟨h1, h2⟩
  · simp only [hh, Bool.false_eq_true, if_false]
    cases ev with
    | session sid => exact ⟨h1, h2⟩
    | content t => exact ⟨h1, h2⟩
    | invoice inv sats =>
      by_cases hb : autoPay = true ∧ st.spent + sats ≤ budget
      · by_cases hp : payOk inv
        · simp only [hb, if_pos, hp, if_true]
          refine ⟨hb.2, ?_⟩
          intro r hr
          rcases List.mem_append.mp hr with hr | hr
          · exact h2 r hr
          · rcases List.mem_singleton.mp hr with rfl
            exact hb.2
        · simp only [hb, if_pos, hp, Bool.false_eq_true, if_false]
          refine ⟨h1, ?_⟩
          intro r hr
          rcases List.mem_append.mp hr with hr | hr
          · exact h2 r hr
          · rcases List.mem_singleton.mp hr with rfl
            exact hb.2
      · simp only [if_neg hb]
        exact ⟨h1, h2⟩
    | done => exact ⟨h1, h2⟩
    | errored m => exact ⟨h1, h2⟩
    | paused => exact ⟨h1, h2⟩

lemma clientStep_spent_mono (autoPay : Bool) (budget : Nat) (payOk : String → Bool)
    (st : ClientSt) (ev : CEvent) :
    st.spent ≤ (clientStep autoPay budget payOk st ev).spent := by
  unfold clientStep
  by_cases hh : st.halted
  · simp [hh]
  · simp only [hh, Bool.false_eq_true, if_false]
    cases ev with
    | session sid => exact le_refl _
    | content t => exact le_refl _
    | invoice inv sats =>
      by_cases hb : autoPay = true ∧ st.spent + sats ≤ budget
      · by_cases hp : payOk inv
        · simp only [hb, if_pos, hp, if_true]
          exact Nat.le_add_right _ _
        · simp only [hb, if_pos, hp, Bool.false_eq_true, if_false]
          exact le_refl _
      · simp only [if_neg hb]
        exact le_refl _
    | done => exact le_refl _
    | errored m => exact le_refl _
    | paused => exact le_refl _

lemma clientRun_fold_inv (autoPay : Bool) (budget : Nat) (payOk : String → Bool) :
    ∀ (evs : List CEvent) (st : ClientSt), BudgetInv budget st →
      BudgetInv budget (List.foldl (clientStep autoPay budget payOk) st evs)
  | [], _, h => h
  | ev :: evs, st, h =>
    clientRun_fold_inv autoPay budget payOk evs _
      (clientStep_preserves_budget autoPay budget payOk st ev h)

/-- C9: the client never pays an invoice that would push cumulative spend
past the budget: every wallet payment call it makes happens while
`spent + sats <= budget`, cumulative spend never exceeds the budget and is
non-decreasing at every step, and an invoice that does not fit the budget is
skipped entirely (the state is untouched). -/
theorem client_budget_enforced (autoPay : Bool) (budget : Nat) (payOk : String → Bool)
    (evs : List CEvent) :
    (clientRun autoPay budget payOk evs).spent ≤ budget ∧
    (∀ r ∈ (clientRun autoPay budget payOk evs).payments,
        r.spentBefore + r.sats ≤ budget) ∧
    (∀ (st : ClientSt) (ev : CEvent),
        st.spent ≤ (clientStep autoPay budget payOk st ev).spent) ∧
    (∀ (st : ClientSt) (inv : String) (sats : Nat),
        ¬(autoPay = true ∧ st.spent + sats ≤ budget) →
        clientStep autoPay budget payOk st (.invoice inv sats) = st) := by
  have hinv := clientRun_fold_inv autoPay budget payOk evs clientInit
    ⟨Nat.zero_le _, by intro r hr; cases hr⟩
  refine ⟨hinv.1, hinv.2, fun st ev => clientStep_spent_mono autoPay budget payOk st ev, ?_⟩
  intro st inv sats hng
  unfold clientStep
  by_cases hh : st.halted
  · simp [hh]
  · simp [hh, hng]

/-- C9 witness: with budget 10 and invoices for 4, 7 and 5 sats, the client
pays the first and third (total 9), skips the second, and every payment it
made fit the budget at call time. -/
theorem client_budget_enforced_witness :
    (clientRun true 10 (fun _ => true)
        [.invoice "a" 4, .invoice "b" 7, .invoice "c" 5]).spent ≤ 10 ∧
    clientStep true 10 (fun _ => true)
        (clientRun true 10 (fun _ => true) [.invoice "a" 4]) (.invoice "b" 7) =
      clientRun true 10 (fun _ => true) [.invoice "a" 4] :=
  ⟨(client_budget_enforced true 10 (fun _ => true)
      [.invoice "a" 4, .invoice "b" 7, .invoice "c" 5]).1,
   (client_budget_enforced true 10 (fun _ => true) []).2.2.2
      (clientRun true 10 (fun _ => true) [.invoice "a" 4]) "b" 7 (by decide)⟩

/-! Reference-heap model of `get` / `list`, for the shallow-copy question.
JavaScript objects are heap cells: the escrow map binds ids to record
addresses, and a record's `history` and `metadata` fields hold addresses of
the nested array / object.  The spread `{ ...e }` in `get` and `list`
(src/lib/escrow.js lines 306-320) allocates a fresh record whose fields —
including the two nested references — are copied verbatim. -/

/-- A stored escrow record: top-level scalars plus references to the nested
`history` array and `metadata` object. -/
structure HRec where
  state : EState
  amountSats : Nat
  historyRef : Nat
  metadataRef : Nat
deriving DecidableEq, Repr

/-- The engine heap: the id-to-address map, the record heap, and the heaps
of history arrays and metadata objects. -/
structure EStore where
  ids : List (String × Nat)
  recs : List HRec
  hists : List (List HistEntry)
  metas : List (List (String × String))
deriving DecidableEq, Repr

/-- Map lookup `escrows.get(id)` resolving to a record address. -/
def lookupId (ids : List (String × Nat)) (id : String) : Option Nat :=
  (ids.find? (fun pr => pr.1 == id)).map (fun pr => pr.2)

/-- Embeds `get` (src/lib/escrow.js lines 306-309): `e ? { ...e } : null`.
The spread allocates a fresh record — same field values, same nested
references — and returns its address. -/
def getOp (st : EStore) (id : String) : Option Nat × EStore :=
  match lookupId st.ids id with
  | none => (none, st)
  | some a =>
    match st.recs[a]? with
    | none => (none, st)
    | some e => (some st.recs.length, { st with recs := st.recs ++ [e] })

/-- Embeds `list()` without a filter (src/lib/escrow.js lines 316-320): one
spread copy per stored record, in map order. -/
def listOp (st : EStore) : List HRec :=
  st.ids.filterMap (fun pr => st.recs[pr.2]?)

/-- A caller mutating a top-level field of a record it holds:
`copy.state = v`. -/
def setStateField (st : EStore) (a : Nat) (v : EState) : EStore :=
  match st.recs[a]? with
  | none => st
  | some e => { st with recs := st.recs.set a { e with state := v } }

/-- A caller mutating a history array through a reference it holds:
`copy.history.push(entry)`. -/
def pushHist (st : EStore) (ref : Nat) (entry : HistEntry) : EStore :=
  match st.hists[ref]? with
  | none => st
  | some l => { st with hists := st.hists.set ref (l ++ [entry]) }

/-- The engine-internal record for an id. -/
def internalRec (st : EStore) (id : String) : Option HRec :=
  match lookupId st.ids id with
  | none => none
  | some a => st.recs[a]?

/-- The engine-internal history array for an id. -/
def internalHistory (st : EStore) (id : String) : Option (List HistEntry) :=
  match internalRec st id with
  | none => none
  | some e => st.hists[e.historyRef]?

/-- Well-formedness: every mapped record address is allocated. -/
def WFStore (st : EStore) : Prop := ∀ pr ∈ st.ids, pr.2 < st.recs.length

lemma list_getElem?_append {α : Type} (l₁ l₂ : List α) (i : Nat) (h : i < l₁.length) :
    (l₁ ++ l₂)[i]? = l₁[i]? := by
  induction l₁ generalizing i with
  | nil => exact absurd h (Nat.not_lt_zero i)
  | cons x xs ih =>
    cases i with
    | zero => simp
    | succ n => simpa using ih n (by simpa using h)

lemma list_getElem?_set_ne {α : Type} (l : List α) (i j : Nat) (a : α) (h : i ≠ j) :
    (l.set i a)[j]? = l[j]? := by
  induction l generalizing i j with
  | nil => simp
  | cons x xs ih =>
    cases i with
    | zero =>
      cases j with
      | zero => exact absurd rfl h
      | succ m => simp
    | succ n =>
      cases j with
      | zero => simp
      | succ m => simpa using ih n m (fun he => h (by rw [he]))

lemma list_getElem?_concat_length {α : Type} (l : List α) (e : α) :
    (l ++ [e])[l.length]? = some e := by
  induction l with
  | nil => simp
  | cons x xs ih => simp [ih]

/-- C7 (amended): `get` returns a shallow copy.  Mutating a top-level field
of the returned copy leaves the engine-internal record unchanged, but the
copy is field-for-field equal to the internal record — in particular it
holds the same `history` and `metadata` references, so mutating those nested
objects through the copy mutates engine-internal state; `list` likewise
returns records field-for-field equal to the stored ones. -/
theorem get_returns_shallow_copy (st : EStore) (id : String) (a : Nat) (st' : EStore)
    (hwf : WFStore st) (h : getOp st id = (some a, st')) :
    (∀ v, internalRec (setStateField st' a v) id = internalRec st id) ∧
    (∃ e, internalRec st id = some e ∧ st'.recs[a]? = some e) ∧
    (∀ r ∈ listOp st, ∃ pr ∈ st.ids, st.recs[pr.2]? = some r) := by
  rcases hl : lookupId st.ids id with _ | a0
  · simp [getOp, hl] at h
  · rcases hr : st.recs[a0]? with _ | e
    · simp [getOp, hl, hr] at h
    · simp only [getOp, hl, hr, Prod.mk.injEq, Option.some.injEq] at h
      obtain ⟨ha, hst'⟩ := h
      subst ha
      subst hst'
      have ha0lt : a0 < st.recs.length := by
        obtain ⟨pr, hfind, hpr2⟩ := Option.map_eq_some'.mp hl
        have hmem := List.mem_of_find?_eq_some hfind
        simpa [hpr2] using hwf pr hmem
      have hne : st.recs.length ≠ a0 := Ne.symm (Nat.ne_of_lt ha0lt)
      refine ⟨?_, ?_, ?_⟩
      · intro v
        simp only [setStateField, list_getElem?_concat_length, internalRec, hl]
        rw [list_getElem?_set_ne _ _ _ _ hne, list_getElem?_append _ _ _ ha0lt, hr]
      · exact ⟨e, by simp [internalRec, hl, hr], list_getElem?_concat_length _ _⟩
      · intro r hr'
        obtain ⟨pr, hmem, hf⟩ := List.mem_filterMap.mp hr'
        exact ⟨pr, hmem, hf⟩

/-- A one-escrow store: record at address 0, history array at reference 0. -/
def storeCex : EStore :=
  ⟨[("e1", 0)], [⟨.created, 500, 0, 0⟩], [[⟨none, .created, 0⟩]], [[]]⟩

/-- The same store after `get("e1")` allocated the spread copy at
address 1. -/
def storeCexCopied : EStore :=
  ⟨[("e1", 0)], [⟨.created, 500, 0, 0⟩, ⟨.created, 500, 0, 0⟩],
    [[⟨none, .created, 0⟩]], [[]]⟩

/-- C7 counterexample: the copy `get` returns shares its `history` reference
with the engine-internal record, so pushing an entry onto the copy's history
array changes the engine-internal history — the records returned by `get`
are not independent copies. -/
theorem get_copy_history_mutation_visible :
    (getOp storeCex "e1").1 = some 1 ∧
    ((getOp storeCex "e1").2.recs[1]?).map (fun r => r.historyRef) = some 0 ∧
    internalHistory
        (pushHist (getOp storeCex "e1").2 0 ⟨some .created, .funded, 5⟩) "e1" =
      some [⟨none, .created, 0⟩, ⟨some .created, .funded, 5⟩] ∧
    internalHistory (getOp storeCex "e1").2 "e1" = some [⟨none, .created, 0⟩] := by
  refine ⟨by decide, by decide, by decide, by decide⟩

/-- C7 witness: mutating the copy's top-level `state` field at the concrete
store leaves the engine-internal record unchanged. -/
theorem get_returns_shallow_copy_witness :
    internalRec (setStateField storeCexCopied 1 .released) "e1" =
      internalRec storeCex "e1" :=
  (get_returns_shallow_copy storeCex "e1" 1 storeCexCopied
    (by unfold WFStore; decide) (by decide)).1 .released

end LightningAgent
